import Mathlib

/-!
Verification of the IntelligentOptionPricer pricing core.

This file gives a shallow embedding, over the real numbers, of the pricing
code in `OptionPricer/` (the `Option` dataclass, the `Pricer` base class,
the closed-form `BlackScholesPricer`, and the four Monte Carlo pricers in
`MonteCarloPricer.py`), and proves or refutes the specification claims
about it.  Floating-point numbers are modelled by `ℝ`; numpy's non-finite
values, where they matter, are modelled by an explicit extended-value type.
External library functions (`scipy.stats.norm.cdf`, `norm.ppf`, the random
sources) are abstracted as function parameters.
-/

noncomputable section

/-- Discriminator for the two `Option` subclasses `Call` and `Put`. -/
inductive OptionKind where
  | call
  | put
deriving DecidableEq

/-- The scalar state bound by `Pricer.__init__`: the instrument fields copied
to `self.S, self.K, self.r, self.q, self.sigma`, the derived year fraction
`self.T`, and the option kind that selects the bound payoff closure. -/
structure PricerState where
  S : ℝ
  K : ℝ
  r : ℝ
  q : ℝ
  sigma : ℝ
  T : ℝ
  kind : OptionKind

/-- The payoff closure bound in `Pricer.__init__`:
`np.maximum(S_T - K, 0)` for a `Call`, `np.maximum(K - S_T, 0)` for a `Put`. -/
def Pricer.payoff (kind : OptionKind) (K : ℝ) (S_T : ℝ) : ℝ :=
  match kind with
  | OptionKind.call => max (S_T - K) 0
  | OptionKind.put => max (K - S_T) 0

/-- The `d1` computed by `BlackScholesPricer.calculate`:
`(log(S/K) + r*T + 0.5*T*sigma**2) / (sigma*sqrt(T))` (note: no dividend
term in the numerator). -/
def BlackScholesPricer.d1 (S K r q sigma T : ℝ) : ℝ :=
  (Real.log (S / K) + r * T + 0.5 * T * sigma ^ 2) / (sigma * Real.sqrt T)

/-- The `d2` computed by `BlackScholesPricer.calculate`: `d1 - sigma*sqrt(T)`. -/
def BlackScholesPricer.d2 (S K r q sigma T : ℝ) : ℝ :=
  BlackScholesPricer.d1 S K r q sigma T - sigma * Real.sqrt T

/-- `BlackScholesPricer.calculate`, with the standard normal cumulative
distribution function `scipy.stats.norm.cdf` abstracted as a parameter `Φ`:
for a `Call` it returns `S*exp(-q*T)*Φ(d1) - K*exp(-r*T)*Φ(d2)`, for a `Put`
it returns `-S*exp(-q*T)*Φ(-d1) + K*exp(-r*T)*Φ(-d2)`. -/
def BlackScholesPricer.calculate (Φ : ℝ → ℝ) (kind : OptionKind) (S K r q sigma T : ℝ) : ℝ :=
  match kind with
  | OptionKind.call =>
      S * Real.exp (-(q * T)) * Φ (BlackScholesPricer.d1 S K r q sigma T) -
        K * Real.exp (-(r * T)) * Φ (BlackScholesPricer.d2 S K r q sigma T)
  | OptionKind.put =>
      -S * Real.exp (-(q * T)) * Φ (-BlackScholesPricer.d1 S K r q sigma T) +
        K * Real.exp (-(r * T)) * Φ (-BlackScholesPricer.d2 S K r q sigma T)

/-- The `d1` formula stated by the specification (§4.2), written from the
spec's words for comparison with the code's `BlackScholesPricer.d1`:
`d1 = (ln(S/K) + (r - q + 0.5σ²)T) / (σ√T)`. -/
def specD1 (S K r q sigma T : ℝ) : ℝ :=
  (Real.log (S / K) + (r - q + 0.5 * sigma ^ 2) * T) / (sigma * Real.sqrt T)

/-- C1: the claim says `calculate` subtracts the dividend yield `q` from the
rate in the numerator of `d1`.  The code does not: at the valid state
`S = 1, K = 1, r = 0, q = 1, σ = 1, T = 1` the code computes `d1 = 1/2`,
while the (spec-mandated) dividend-adjusted formula gives `-1/2`. -/
theorem c1_code_d1_omits_dividend_yield :
    BlackScholesPricer.d1 1 1 0 1 1 1 = 1 / 2 ∧ specD1 1 1 0 1 1 1 = -(1 / 2) := by
  constructor
  · unfold BlackScholesPricer.d1
    norm_num
  · unfold specD1
    norm_num

/-- C5: put-call parity for the closed-form pricer.  For any `Φ` satisfying
the cumulative-distribution symmetry `Φ(x) + Φ(-x) = 1` (true of the standard
normal CDF) and any valid state, the `Call` price minus the `Put` price
computed by `BlackScholesPricer.calculate` equals `S·e^(−qT) − K·e^(−rT)`
exactly in real arithmetic. -/
theorem c5_put_call_parity (Φ : ℝ → ℝ) (hΦ : ∀ x, Φ x + Φ (-x) = 1)
    (S K r q sigma T : ℝ) (hS : 0 < S) (hK : 0 < K) (hsigma : 0 < sigma) (hT : 0 < T) :
    BlackScholesPricer.calculate Φ OptionKind.call S K r q sigma T -
      BlackScholesPricer.calculate Φ OptionKind.put S K r q sigma T =
      S * Real.exp (-(q * T)) - K * Real.exp (-(r * T)) := by
  unfold BlackScholesPricer.calculate
  linear_combination (S * Real.exp (-(q * T))) * hΦ (BlackScholesPricer.d1 S K r q sigma T) -
    (K * Real.exp (-(r * T))) * hΦ (BlackScholesPricer.d2 S K r q sigma T)

/-- C5 witness: put-call parity instantiated at `Φ = const 1/2`,
`S = K = σ = T = 1`, `r = q = 0`. -/
theorem c5_put_call_parity_witness :
    BlackScholesPricer.calculate (fun _ => 1 / 2) OptionKind.call 1 1 0 0 1 1 -
      BlackScholesPricer.calculate (fun _ => 1 / 2) OptionKind.put 1 1 0 0 1 1 =
      1 * Real.exp (-(0 * 1)) - 1 * Real.exp (-(0 * 1)) :=
  c5_put_call_parity (fun _ => 1 / 2) (fun x => by norm_num) 1 1 0 0 1 1
    one_pos one_pos one_pos one_pos

/-- `np.mean` of an array of length `n` modelled as a function on indices. -/
def npMean (n : ℕ) (v : ℕ → ℝ) : ℝ :=
  (∑ i ∈ Finset.range n, v i) / n

/-- `MonteCarloPricerClassic.calculate`: draws `W_T = sqrt(T) * Z`,
`S_T = S * exp((r - q - 0.5*sigma**2)*T + sigma*W_T)`, and returns
`np.mean(payoff(S_T) * exp(-r*T))`.  The pseudo-random normal draws
`np.random.normal(size=n)` are abstracted as the input stream `Z`. -/
def MonteCarloPricerClassic.calculate (P : PricerState) (nbSamples : ℕ) (Z : ℕ → ℝ) : ℝ :=
  let W_T := fun i => Real.sqrt P.T * Z i
  let S_T := fun i =>
    P.S * Real.exp ((P.r - P.q - 0.5 * P.sigma ^ 2) * P.T + P.sigma * W_T i)
  npMean nbSamples (fun i => Pricer.payoff P.kind P.K (S_T i) * Real.exp (-(P.r * P.T)))

/-- `MonteCarloPricerQMC.calculate`: the scrambled Sobol uniforms
`sampler.random(nb_samples)` are abstracted as the stream `U`, the inverse
CDF `norm.ppf` as `ppf`, and the pseudo-random draws `np.random.normal` as
`Zrand`.  Mirroring the source line by line, `W_T` is first computed from the
Sobol sequence and then immediately rebound to `sqrt(T) * np.random.normal`,
which is what feeds `S_T`. -/
def MonteCarloPricerQMC.calculate (ppf : ℝ → ℝ) (P : PricerState) (nbSamples : ℕ)
    (U : ℕ → ℝ) (Zrand : ℕ → ℝ) : ℝ :=
  let G := fun i => ppf (U i)
  let W_T := fun i => Real.sqrt P.T * G i
  let W_T := fun i => Real.sqrt P.T * Zrand i
  let S_T := fun i =>
    P.S * Real.exp ((P.r - P.q - 0.5 * P.sigma ^ 2) * P.T + P.sigma * W_T i)
  npMean nbSamples (fun i => Pricer.payoff P.kind P.K (S_T i) * Real.exp (-(P.r * P.T)))

/-- C2: the claim says the QMC pricer's normal variates come from a scrambled
Sobol sequence mapped through the inverse CDF.  In the code the Sobol-derived
`W_T` is overwritten before use: the returned price is independent of the
Sobol uniforms (and of `ppf`) and coincides with the Classic pricer run on
the pseudo-random draws. -/
theorem c2_qmc_result_ignores_sobol_sequence (ppf : ℝ → ℝ) (P : PricerState)
    (n : ℕ) (U U2 Zrand : ℕ → ℝ) :
    MonteCarloPricerQMC.calculate ppf P n U Zrand =
      MonteCarloPricerQMC.calculate ppf P n U2 Zrand ∧
    MonteCarloPricerQMC.calculate ppf P n U Zrand =
      MonteCarloPricerClassic.calculate P n Zrand :=
  ⟨rfl, rfl⟩

/-- The terminal underlying price `S_T(z) = S·exp((r − q − 0.5σ²)T + σ√T·z)`
as written in the claims (§4.3 of the spec). -/
def terminalPrice (P : PricerState) (z : ℝ) : ℝ :=
  P.S * Real.exp ((P.r - P.q - 0.5 * P.sigma ^ 2) * P.T + P.sigma * Real.sqrt P.T * z)

/-- `MonteCarloPricerAntithetic.calculate`: draws `W_T = sqrt(T) * Z`, forms
`S_T1` from `+W_T` and `S_T2` from `-W_T`, averages the two payoffs per pair,
and returns `np.mean(payoff * exp(-r*T))`. -/
def MonteCarloPricerAntithetic.calculate (P : PricerState) (nbSamples : ℕ) (Z : ℕ → ℝ) : ℝ :=
  let W_T := fun i => Real.sqrt P.T * Z i
  let drift := (P.r - P.q - 0.5 * P.sigma ^ 2) * P.T
  let S_T1 := fun i => P.S * Real.exp (drift + P.sigma * W_T i)
  let S_T2 := fun i => P.S * Real.exp (drift + P.sigma * -W_T i)
  let payoff := fun i =>
    (Pricer.payoff P.kind P.K (S_T1 i) + Pricer.payoff P.kind P.K (S_T2 i)) / 2
  npMean nbSamples (fun i => payoff i * Real.exp (-(P.r * P.T)))

/-- C8: the Antithetic pricer returns the mean over the `n` draws of the
pair-averaged payoff `(payoff(S_T(Z)) + payoff(S_T(−Z)))/2`, discounted by
`e^(−rT)`, with `S_T(z) = S·exp((r − q − 0.5σ²)T + σ√T·z)`. -/
theorem c8_antithetic_pair_averaged_payoff (P : PricerState) (n : ℕ) (Z : ℕ → ℝ)
    (hn : 0 < n) (hS : 0 < P.S) (hK : 0 < P.K) (hsigma : 0 < P.sigma) (hT : 0 < P.T) :
    MonteCarloPricerAntithetic.calculate P n Z =
      (∑ i ∈ Finset.range n,
        (Pricer.payoff P.kind P.K (terminalPrice P (Z i)) +
          Pricer.payoff P.kind P.K (terminalPrice P (-Z i))) / 2) / n *
        Real.exp (-(P.r * P.T)) := by
  simp only [MonteCarloPricerAntithetic.calculate, npMean, terminalPrice]
  rw [div_mul_eq_mul_div, Finset.sum_mul]
  congr 1
  refine Finset.sum_congr rfl fun i _ => ?_
  have h1 : (P.r - P.q - 0.5 * P.sigma ^ 2) * P.T + P.sigma * (Real.sqrt P.T * Z i) =
      (P.r - P.q - 0.5 * P.sigma ^ 2) * P.T + P.sigma * Real.sqrt P.T * Z i := by ring
  have h2 : (P.r - P.q - 0.5 * P.sigma ^ 2) * P.T + P.sigma * -(Real.sqrt P.T * Z i) =
      (P.r - P.q - 0.5 * P.sigma ^ 2) * P.T + P.sigma * Real.sqrt P.T * -Z i := by ring
  rw [h1, h2]

/-- C8 witness: the antithetic identity instantiated at the valid state
`S = K = σ = T = 1`, `r = q = 0`, with `n = 1` and the single draw `Z = 0`. -/
theorem c8_antithetic_pair_averaged_payoff_witness :
    MonteCarloPricerAntithetic.calculate ⟨1, 1, 0, 0, 1, 1, OptionKind.call⟩ 1 (fun _ => 0) =
      (∑ i ∈ Finset.range 1,
        (Pricer.payoff OptionKind.call 1
            (terminalPrice ⟨1, 1, 0, 0, 1, 1, OptionKind.call⟩ ((fun _ : ℕ => (0 : ℝ)) i)) +
          Pricer.payoff OptionKind.call 1
            (terminalPrice ⟨1, 1, 0, 0, 1, 1, OptionKind.call⟩ (-(fun _ : ℕ => (0 : ℝ)) i))) / 2) /
        (1 : ℕ) * Real.exp (-(0 * 1)) :=
  c8_antithetic_pair_averaged_payoff ⟨1, 1, 0, 0, 1, 1, OptionKind.call⟩ 1 (fun _ => 0)
    one_pos one_pos one_pos one_pos one_pos

/-- The `while count_draws < nb_samples` loop of `MonteCarloPricerLazy.calculate`.
The infinite generator `_normal_generator(batch_size)` is abstracted as the
stream `draws`, its `k`-th batch being `draws (k*b), ..., draws (k*b + b - 1)`.
Each iteration takes the next batch, truncates it to `needed = n - count` when
it is larger, adds the batch's payoff sum to the accumulator and advances the
draw count.  `f` is the composite `payoff(S * exp(drift + sigma*sqrt(T)*g))`
applied to a single draw. -/
def MonteCarloPricerLazy.loop (f : ℝ → ℝ) (draws : ℕ → ℝ) (b : ℕ) (hb : 0 < b)
    (n count k : ℕ) (acc : ℝ) : ℝ :=
  if h : count < n then
    let m := min b (n - count)
    MonteCarloPricerLazy.loop f draws b hb n (count + m) (k + 1)
      (acc + ∑ j ∈ Finset.range m, f (draws (k * b + j)))
  else acc
termination_by n - count
decreasing_by
  simp_wf
  omega

/-- `MonteCarloPricerLazy.calculate`: runs the batch loop starting from
`sum_payoff = 0.0`, `count_draws = 0`, then returns
`(sum_payoff / nb_samples) * exp(-r*T)`.  `nb_samples` is an `int` that may
be non-positive; a zero divisor raises Python's `ZeroDivisionError`, modelled
as the error branch.  For `nb_samples ≤ 0` the loop body never runs, matching
the Python `while` condition `count_draws < nb_samples`. -/
def MonteCarloPricerLazy.calculate (P : PricerState) (nbSamples : ℤ) (b : ℕ) (hb : 0 < b)
    (draws : ℕ → ℝ) : Except String ℝ :=
  let drift := (P.r - P.q - 0.5 * P.sigma ^ 2) * P.T
  let sumPayoff := MonteCarloPricerLazy.loop
    (fun g => Pricer.payoff P.kind P.K (P.S * Real.exp (drift + P.sigma * Real.sqrt P.T * g)))
    draws b hb nbSamples.toNat 0 0 0
  if nbSamples = 0 then Except.error "ZeroDivisionError: float division by zero"
  else Except.ok (sumPayoff / (nbSamples : ℝ) * Real.exp (-(P.r * P.T)))

/-- The batch loop consumes exactly the first `n` draws of the stream, in
order: started at `count = k*b` it adds `∑_{count ≤ i < n} f(draws i)` to the
accumulator. -/
theorem MonteCarloPricerLazy.loop_eq_sum (f : ℝ → ℝ) (draws : ℕ → ℝ) (b : ℕ) (hb : 0 < b)
    (n : ℕ) : ∀ fuel count k acc, n - count ≤ fuel → count = k * b →
    MonteCarloPricerLazy.loop f draws b hb n count k acc =
      acc + ∑ i ∈ Finset.Ico count n, f (draws i) := by
  intro fuel
  induction fuel with
  | zero =>
    intro count k acc hfuel hck
    rw [MonteCarloPricerLazy.loop, dif_neg (by omega), Finset.Ico_eq_empty (by omega),
      Finset.sum_empty, add_zero]
  | succ fuel ih =>
    intro count k acc hfuel hck
    rw [MonteCarloPricerLazy.loop]
    by_cases h : count < n
    · rw [dif_pos h]
      have hbatch : ∀ m, m = min b (n - count) →
          (∑ j ∈ Finset.range m, f (draws (k * b + j))) =
            ∑ i ∈ Finset.Ico count (count + m), f (draws i) := by
        intro m _
        rw [Finset.sum_Ico_eq_sum_range]
        simp only [Nat.add_sub_cancel_left]
        exact Finset.sum_congr rfl fun j _ => by rw [hck]
      by_cases hbig : b ≤ n - count
      · have hmin : min b (n - count) = b := min_eq_left hbig
        simp only [hmin]
        rw [ih (count + b) (k + 1) _ (by omega) (by rw [hck, Nat.succ_mul])]
        rw [hbatch b (by rw [hmin]), add_assoc]
        congr 1
        exact Finset.sum_Ico_consecutive _ (by omega) (by omega)
      · have hmin : min b (n - count) = n - count := min_eq_right (by omega)
        simp only [hmin]
        have hend : count + (n - count) = n := by omega
        rw [hend, MonteCarloPricerLazy.loop, dif_neg (lt_irrefl n)]
        rw [hbatch (n - count) (by rw [hmin])]
        rw [hend]
    · rw [dif_neg h, Finset.Ico_eq_empty (by omega), Finset.sum_empty, add_zero]

/-- C7: for every positive sample count `n` and batch size `b`, the
Streaming/Lazy pricer terminates (it is a well-founded total function in this
embedding) and returns exactly
`(∑ payoff(S_T(draws i)) over the first n draws) / n * e^(−rT)`:
batches are consumed in order, the final batch is truncated so that exactly
`n` draws are used, and the payoff sum is accumulated incrementally. -/
theorem c7_lazy_batched_terminates_with_truncated_mean (P : PricerState) (n b : ℕ)
    (draws : ℕ → ℝ) (hn : 0 < n) (hb : 0 < b) :
    MonteCarloPricerLazy.calculate P (n : ℤ) b hb draws =
      Except.ok ((∑ i ∈ Finset.range n,
          Pricer.payoff P.kind P.K (terminalPrice P (draws i))) / (n : ℝ) *
        Real.exp (-(P.r * P.T))) := by
  have hn0 : (n : ℤ) ≠ 0 := by exact_mod_cast hn.ne'
  simp only [MonteCarloPricerLazy.calculate, if_neg hn0, Int.toNat_natCast]
  rw [MonteCarloPricerLazy.loop_eq_sum _ _ _ _ _ n 0 0 0 (le_refl _) (by omega), zero_add]
  rw [Finset.range_eq_Ico]
  norm_num [terminalPrice]

/-- C7 witness: the Streaming/Lazy pricer at the valid state
`S = K = σ = T = 1`, `r = q = 0`, with `n = 3`, `b = 2` (so the second batch
is truncated), and the constant draw stream `0`. -/
theorem c7_lazy_batched_terminates_with_truncated_mean_witness :
    MonteCarloPricerLazy.calculate ⟨1, 1, 0, 0, 1, 1, OptionKind.call⟩ ((3 : ℕ) : ℤ) 2
      (by norm_num) (fun _ => 0) =
      Except.ok ((∑ i ∈ Finset.range 3,
          Pricer.payoff OptionKind.call 1
            (terminalPrice ⟨1, 1, 0, 0, 1, 1, OptionKind.call⟩ ((fun _ : ℕ => (0 : ℝ)) i))) /
          ((3 : ℕ) : ℝ) * Real.exp (-(0 * 1))) :=
  c7_lazy_batched_terminates_with_truncated_mean ⟨1, 1, 0, 0, 1, 1, OptionKind.call⟩ 3 2
    (fun _ => 0) (by norm_num) (by norm_num)

/-- C3 counterexample: the claim says every Monte Carlo variant aborts with an
InvalidSampleCountError-kind error for `n ≤ 0`.  The Streaming/Lazy pricer,
called at the valid state `S = K = 100, r = q = 0, σ = T = 1` with
`nb_samples = -1` and the default `batch_size = 100000`, runs zero loop
iterations and returns the numeric value `0` — no error of any kind. -/
theorem c3_lazy_negative_sample_count_returns_numeric_zero :
    MonteCarloPricerLazy.calculate ⟨100, 100, 0, 0, 1, 1, OptionKind.call⟩ (-1) 100000
      (by norm_num) (fun _ => 0) = Except.ok 0 := by
  simp only [MonteCarloPricerLazy.calculate]
  rw [show ((-1 : ℤ)).toNat = 0 from rfl, MonteCarloPricerLazy.loop, dif_neg (lt_irrefl 0),
    if_neg (by norm_num)]
  norm_num

/-- C3 amended: no Monte Carlo variant validates the sample count.  In
particular, for every negative `n` the Streaming/Lazy `calculate` consumes no
batches and returns the numeric value `(0 / n) * e^(−rT) = 0` instead of
failing (only `n = 0` aborts, with Python's `ZeroDivisionError`, which is not
a sample-count validation error), and the pricer state is never touched. -/
theorem c3_no_sample_count_validation (P : PricerState) (b : ℕ) (hb : 0 < b)
    (draws : ℕ → ℝ) (n : ℤ) (hn : n < 0) :
    MonteCarloPricerLazy.calculate P n b hb draws = Except.ok 0 := by
  simp only [MonteCarloPricerLazy.calculate]
  rw [Int.toNat_of_nonpos hn.le, MonteCarloPricerLazy.loop, dif_neg (lt_irrefl 0),
    if_neg hn.ne]
  norm_num

/-- C3 amended witness: the Streaming/Lazy pricer with `n = -2`, `b = 7` at
the valid state `S = K = σ = T = 1`, `r = q = 0` returns the numeric `0`. -/
theorem c3_no_sample_count_validation_witness :
    MonteCarloPricerLazy.calculate ⟨1, 1, 0, 0, 1, 1, OptionKind.call⟩ (-2) 7
      (by norm_num) (fun _ => 0) = Except.ok 0 :=
  c3_no_sample_count_validation ⟨1, 1, 0, 0, 1, 1, OptionKind.call⟩ 7 (by norm_num)
    (fun _ => 0) (-2) (by norm_num)

/-- A numpy scalar: a finite float (modelled as a real), `inf`, `-inf`, or
`nan`.  Used where the source can produce non-finite values silently. -/
inductive NpVal where
  | finite : ℝ → NpVal
  | pinf : NpVal
  | ninf : NpVal
  | nan : NpVal

/-- numpy division, including the silent division-by-zero semantics:
`x/0 = inf` for `x > 0`, `-inf` for `x < 0`, `nan` for `x = 0` (numpy emits a
RuntimeWarning, not an exception). -/
def NpVal.div : NpVal → NpVal → NpVal
  | NpVal.nan, _ => NpVal.nan
  | _, NpVal.nan => NpVal.nan
  | NpVal.finite x, NpVal.finite y =>
      if y = 0 then (if 0 < x then NpVal.pinf else if x < 0 then NpVal.ninf else NpVal.nan)
      else NpVal.finite (x / y)
  | NpVal.pinf, NpVal.finite y => if y < 0 then NpVal.ninf else NpVal.pinf
  | NpVal.ninf, NpVal.finite y => if y < 0 then NpVal.pinf else NpVal.ninf
  | NpVal.finite _, NpVal.pinf => NpVal.finite 0
  | NpVal.finite _, NpVal.ninf => NpVal.finite 0
  | _, _ => NpVal.nan

/-- numpy subtraction on possibly non-finite scalars. -/
def NpVal.sub : NpVal → NpVal → NpVal
  | NpVal.nan, _ => NpVal.nan
  | _, NpVal.nan => NpVal.nan
  | NpVal.finite x, NpVal.finite y => NpVal.finite (x - y)
  | NpVal.pinf, NpVal.finite _ => NpVal.pinf
  | NpVal.ninf, NpVal.finite _ => NpVal.ninf
  | NpVal.finite _, NpVal.pinf => NpVal.ninf
  | NpVal.finite _, NpVal.ninf => NpVal.pinf
  | NpVal.pinf, NpVal.ninf => NpVal.pinf
  | NpVal.ninf, NpVal.pinf => NpVal.ninf
  | _, _ => NpVal.nan

/-- numpy addition on possibly non-finite scalars. -/
def NpVal.add : NpVal → NpVal → NpVal
  | NpVal.nan, _ => NpVal.nan
  | _, NpVal.nan => NpVal.nan
  | NpVal.finite x, NpVal.finite y => NpVal.finite (x + y)
  | NpVal.pinf, NpVal.finite _ => NpVal.pinf
  | NpVal.ninf, NpVal.finite _ => NpVal.ninf
  | NpVal.finite _, NpVal.pinf => NpVal.pinf
  | NpVal.finite _, NpVal.ninf => NpVal.ninf
  | NpVal.pinf, NpVal.pinf => NpVal.pinf
  | NpVal.ninf, NpVal.ninf => NpVal.ninf
  | _, _ => NpVal.nan

/-- numpy multiplication on possibly non-finite scalars (`inf * 0 = nan`). -/
def NpVal.mul : NpVal → NpVal → NpVal
  | NpVal.nan, _ => NpVal.nan
  | _, NpVal.nan => NpVal.nan
  | NpVal.finite x, NpVal.finite y => NpVal.finite (x * y)
  | NpVal.pinf, NpVal.finite y =>
      if 0 < y then NpVal.pinf else if y < 0 then NpVal.ninf else NpVal.nan
  | NpVal.ninf, NpVal.finite y =>
      if 0 < y then NpVal.ninf else if y < 0 then NpVal.pinf else NpVal.nan
  | NpVal.finite x, NpVal.pinf =>
      if 0 < x then NpVal.pinf else if x < 0 then NpVal.ninf else NpVal.nan
  | NpVal.finite x, NpVal.ninf =>
      if 0 < x then NpVal.ninf else if x < 0 then NpVal.pinf else NpVal.nan
  | NpVal.pinf, NpVal.pinf => NpVal.pinf
  | NpVal.pinf, NpVal.ninf => NpVal.ninf
  | NpVal.ninf, NpVal.pinf => NpVal.ninf
  | NpVal.ninf, NpVal.ninf => NpVal.pinf

/-- Negation of a possibly non-finite numpy scalar. -/
def NpVal.neg : NpVal → NpVal
  | NpVal.finite x => NpVal.finite (-x)
  | NpVal.pinf => NpVal.ninf
  | NpVal.ninf => NpVal.pinf
  | NpVal.nan => NpVal.nan

/-- `scipy.stats.norm.cdf` on a possibly non-finite argument: the finite case
is the abstracted CDF `Φ`, and `cdf(inf) = 1`, `cdf(-inf) = 0`,
`cdf(nan) = nan`. -/
def normCdfNp (Φ : ℝ → ℝ) : NpVal → NpVal
  | NpVal.finite x => NpVal.finite (Φ x)
  | NpVal.pinf => NpVal.finite 1
  | NpVal.ninf => NpVal.finite 0
  | NpVal.nan => NpVal.nan

/-- `BlackScholesPricer.calculate` re-traced with numpy scalar semantics, so
that the behaviour of the division `/(sigma*sqrt(T))` at a zero denominator
is modelled rather than idealised.  With positive `S, K` the numerator and
all other intermediate inputs are finite reals; the only possible non-finite
creation point is the division defining `d1`, exactly as in the source, which
has no guard or error branch whatsoever. -/
def BlackScholesPricer.calculateNp (Φ : ℝ → ℝ) (kind : OptionKind) (S K r q sigma T : ℝ) :
    NpVal :=
  let d1 := NpVal.div (NpVal.finite (Real.log (S / K) + r * T + 0.5 * T * sigma ^ 2))
    (NpVal.finite (sigma * Real.sqrt T))
  let d2 := NpVal.sub d1 (NpVal.finite (sigma * Real.sqrt T))
  match kind with
  | OptionKind.call =>
      NpVal.sub (NpVal.mul (NpVal.finite (S * Real.exp (-(q * T)))) (normCdfNp Φ d1))
        (NpVal.mul (NpVal.finite (K * Real.exp (-(r * T)))) (normCdfNp Φ d2))
  | OptionKind.put =>
      NpVal.add (NpVal.mul (NpVal.neg (NpVal.finite (S * Real.exp (-(q * T)))))
          (normCdfNp Φ (NpVal.neg d1)))
        (NpVal.mul (NpVal.finite (K * Real.exp (-(r * T)))) (normCdfNp Φ (NpVal.neg d2)))

/-- C4 counterexample: the claim says that when `σ·√T = 0` the closed-form
`calculate` reports an input error instead of dividing.  At the valid state
`S = 2, K = 1, r = 0, q = 0, σ = 0, T = 1` (volatility `0` passes the
Instrument checks) the code divides `log 2` by `0`, numpy yields `d1 = +inf`,
`Φ(+inf) = 1`, and `calculate` silently returns the finite number `1` — no
error branch is ever taken (the CDF abstraction `Φ` is irrelevant on this
path; the constant `0` stands in for it). -/
theorem c4_sigma_zero_returns_finite_value_not_error :
    BlackScholesPricer.calculateNp (fun _ => 0) OptionKind.call 2 1 0 0 0 1 =
      NpVal.finite 1 := by
  have hden : (0 : ℝ) * Real.sqrt 1 = 0 := by norm_num
  have hnum : (0 : ℝ) < Real.log (2 / 1) + 0 * 1 + 0.5 * 1 * 0 ^ 2 := by
    norm_num
    exact Real.log_pos (by norm_num)
  simp only [BlackScholesPricer.calculateNp, hden, NpVal.div, if_pos rfl, if_pos hnum,
    NpVal.sub, NpVal.mul, normCdfNp]
  norm_num [Real.exp_zero]

/-- C4 amended: the division by `σ·√T` in the closed-form `calculate` is
unguarded.  When `σ·√T = 0` and the numerator of `d1` is positive (for
example any in-the-money call with `σ = 0`), numpy produces `d1 = d2 = +inf`
and `calculate` silently returns the finite value `S·e^(−qT) − K·e^(−rT)`
instead of reporting an input error; no error branch exists. -/
theorem c4_unguarded_division_silently_returns_value (Φ : ℝ → ℝ) (S K r q sigma T : ℝ)
    (hden : sigma * Real.sqrt T = 0)
    (hnum : 0 < Real.log (S / K) + r * T + 0.5 * T * sigma ^ 2) :
    BlackScholesPricer.calculateNp Φ OptionKind.call S K r q sigma T =
      NpVal.finite (S * Real.exp (-(q * T)) - K * Real.exp (-(r * T))) := by
  simp only [BlackScholesPricer.calculateNp, hden, NpVal.div, if_pos rfl, if_pos hnum,
    NpVal.sub, NpVal.mul, normCdfNp]
  norm_num

/-- C4 amended witness: the in-the-money call `S = 2, K = 1, r = q = 0` with
`σ = 0, T = 1` yields the finite value `2·e^(−0·1) − 1·e^(−0·1)`. -/
theorem c4_unguarded_division_silently_returns_value_witness :
    BlackScholesPricer.calculateNp (fun _ => 0) OptionKind.call 2 1 0 0 0 1 =
      NpVal.finite (2 * Real.exp (-(0 * 1)) - 1 * Real.exp (-(0 * 1))) :=
  c4_unguarded_division_silently_returns_value (fun _ => 0) 2 1 0 0 0 1 (by norm_num)
    (by norm_num; exact Real.log_pos (by norm_num))

/-- The day-count constant `CONVENTION_YEAR_FRACTION = 365` from `Pricer.py`. -/
def CONVENTION_YEAR_FRACTION : ℝ := 365

/-- `Pricer.__init__`: datetimes are modelled as integer timestamps in
seconds; Python's `(maturity - calculation_date).days` is floor division of
the difference by 86400.  The constructor asserts
`maturity > calculation_date` (the `isinstance(Call) or isinstance(Put)`
assert always succeeds here because `kind` ranges over exactly those two
cases), copies the instrument scalars, computes
`T = days / CONVENTION_YEAR_FRACTION`, and binds the payoff closure. -/
def Pricer.init (kind : OptionKind) (underlyingPrice strike rate dividend volatility : ℝ)
    (maturity calculationDate : ℤ) : Except String PricerState :=
  if maturity > calculationDate then
    Except.ok
      { S := underlyingPrice, K := strike, r := rate, q := dividend, sigma := volatility,
        T := (((maturity - calculationDate).fdiv 86400 : ℤ) : ℝ) / CONVENTION_YEAR_FRACTION,
        kind := kind }
  else Except.error "Maturity date must be greater than calculation date"

/-- C6: the claim says Pricer construction fails whenever the derived
`T = days/365` is zero or negative, so that every constructed Pricer has
`T > 0`.  A maturity one hour (3600 s) after the valuation instant passes the
code's `maturity > calculation_date` assert, yet `(maturity - valuation).days`
truncates to `0`: the Pricer is successfully constructed with `T = 0`. -/
theorem c6_subday_maturity_constructs_pricer_with_zero_T :
    Pricer.init OptionKind.call 100 100 (5 / 100) (2 / 100) (2 / 10) 3600 0 =
      Except.ok
        { S := 100, K := 100, r := 5 / 100, q := 2 / 100, sigma := 2 / 10, T := 0,
          kind := OptionKind.call } := by
  rw [Pricer.init, if_pos (by decide)]
  have h : ((3600 : ℤ) - 0).fdiv 86400 = 0 := by decide
  simp [h, CONVENTION_YEAR_FRACTION]

/-- The maturity field of the `Option` dataclass as it reaches
`__post_init__`: either a raw string (the `str` case carries the timestamp
that `datetime.strptime(maturity, "%m/%d/%Y")` parses it to) or an already
constructed `datetime` value. -/
inductive MaturityInput where
  | str (parsed : ℤ)
  | dt (value : ℤ)

/-- `Option.__post_init__`: asserts `volatility >= 0`, `underlying_price >= 0`
and `dividend >= 0` in that order, then — only when the maturity was supplied
as a string — parses it and asserts `maturity > datetime.today()`.  A
maturity already given as a `datetime` is accepted without any ordering
check.  Returns the final maturity timestamp on success. -/
def optionPostInit (volatility underlyingPrice dividend : ℝ) (maturity : MaturityInput)
    (today : ℤ) : Except String ℤ :=
  if 0 ≤ volatility then
    if 0 ≤ underlyingPrice then
      if 0 ≤ dividend then
        match maturity with
        | MaturityInput.str parsed =>
            if parsed > today then Except.ok parsed
            else Except.error "Maturity date must be greater than calculation date"
        | MaturityInput.dt value => Except.ok value
      else Except.error "Dividend must be positive"
    else Except.error "Underlying price must be positive"
  else Except.error "Volatility must be positive"

/-- C10: an Instrument whose maturity is supplied as a `datetime` lying on or
before the construction date is accepted by `Option.__post_init__` (the
non-negativity checks still run and pass), and the past maturity is only
rejected later, by the `maturity > calculation_date` assert of
`Pricer.__init__`. -/
theorem c10_datetime_maturity_skips_ordering_check (vol price div : ℝ) (m today : ℤ)
    (hvol : 0 ≤ vol) (hprice : 0 ≤ price) (hdiv : 0 ≤ div) (hm : m ≤ today)
    (kind : OptionKind) (S K r q sigma : ℝ) (calcDate : ℤ) (hcalc : today ≤ calcDate) :
    optionPostInit vol price div (MaturityInput.dt m) today = Except.ok m ∧
    Pricer.init kind S K r q sigma m calcDate =
      Except.error "Maturity date must be greater than calculation date" := by
  constructor
  · rw [optionPostInit, if_pos hvol, if_pos hprice, if_pos hdiv]
  · rw [Pricer.init, if_neg (by omega)]

/-- C10 witness: a Call instrument with `volatility = 1/5`,
`underlying_price = 100`, `dividend = 0` and a `datetime` maturity equal to
the construction instant is constructed successfully, and the Pricer built
one day later rejects it. -/
theorem c10_datetime_maturity_skips_ordering_check_witness :
    optionPostInit (1 / 5) 100 0 (MaturityInput.dt 0) 0 = Except.ok 0 ∧
    Pricer.init OptionKind.call 100 100 0 0 (1 / 5) 0 86400 =
      Except.error "Maturity date must be greater than calculation date" :=
  c10_datetime_maturity_skips_ordering_check (1 / 5) 100 0 0 0 (by norm_num) (by norm_num)
    (by norm_num) (by omega) OptionKind.call 100 100 0 0 (1 / 5) 86400 (by omega)

/-- Python `round(x, 6)` modelled as rounding `x·10⁶` to the nearest integer
and scaling back.  The half-to-even tie rule of Python is immaterial to the
claims, which compare two applications of the same rounding. -/
def round6 (x : ℝ) : ℝ :=
  ((round (x * 1000000) : ℤ) : ℝ) / 1000000

/-- `MonteCarloPricer.benchmark`: for `i in range(1000)` it stores
`prices[i] = self.calculate(nb_samples)` and the call's wall-clock duration
in `durations[i]`, then returns
`(round(mean(durations), 6), round(mean(prices), 6))`.  The `i`-th call's
returned price and measured duration are abstracted as input streams
`calcResult` and `dur`. -/
def MonteCarloPricer.benchmark (calcResult : ℕ → ℝ) (dur : ℕ → ℝ) : ℝ × ℝ :=
  let nbIterations := 1000
  (round6 (npMean nbIterations dur), round6 (npMean nbIterations calcResult))

/-- `BlackScholesPricer.benchmark`: the loop rebinds
`price = self.calculate()` on each of the 1000 iterations and returns
`(round(mean(durations), 6), round(price, 6))` — the price left by the final
iteration.  `calculate` takes no per-call input and is deterministic in the
pricer state, so every iteration stores the same value. -/
def BlackScholesPricer.benchmark (Φ : ℝ → ℝ) (kind : OptionKind) (S K r q sigma T : ℝ)
    (dur : ℕ → ℝ) : ℝ × ℝ :=
  let price := (List.range 1000).foldl
    (fun _ _ => BlackScholesPricer.calculate Φ kind S K r q sigma T) 0
  (round6 (npMean 1000 dur), round6 price)

/-- Folding a constant-valued update over a nonempty list yields the
constant: the value left by the last iteration of a loop that rebinds the
same value each time. -/
theorem foldl_const_of_ne_nil (c : ℝ) :
    ∀ (l : List ℕ) (acc : ℝ), l ≠ [] → l.foldl (fun _ _ => c) acc = c := by
  intro l
  induction l with
  | nil => intro acc h; exact absurd rfl h
  | cons x xs ih =>
    intro acc h
    rw [List.foldl_cons]
    cases xs with
    | nil => rfl
    | cons y ys => exact ih c (by simp)

/-- C9: both benchmark harnesses perform exactly 1000 `calculate` calls (the
iteration count is the literal `1000` in both definitions) and return the
pair (mean duration rounded to 6 places, mean price rounded to 6 places).
For the Monte Carlo harness the second component is by construction the
rounded mean of the 1000 stored prices; for the closed-form harness the
returned last-iteration price equals the rounded mean of the 1000 (all
identical) computed prices, because `calculate` is deterministic. -/
theorem c9_benchmark_returns_rounded_mean_price (calcResult dur : ℕ → ℝ) (Φ : ℝ → ℝ)
    (kind : OptionKind) (S K r q sigma T : ℝ) :
    MonteCarloPricer.benchmark calcResult dur =
      (round6 ((∑ i ∈ Finset.range 1000, dur i) / 1000),
        round6 ((∑ i ∈ Finset.range 1000, calcResult i) / 1000)) ∧
    BlackScholesPricer.benchmark Φ kind S K r q sigma T dur =
      (round6 ((∑ i ∈ Finset.range 1000, dur i) / 1000),
        round6 ((∑ i ∈ Finset.range 1000,
            BlackScholesPricer.calculate Φ kind S K r q sigma T) / 1000)) := by
  constructor
  · simp [MonteCarloPricer.benchmark, npMean]
  · simp only [BlackScholesPricer.benchmark, npMean]
    rw [foldl_const_of_ne_nil _ _ _ (by simp), Finset.sum_const, Finset.card_range,
      nsmul_eq_mul]
    norm_num
